import Mathlib

/-!
Verification of `@softwareventures/timestamp` (src/index.ts and the
format module in src/unnamed/part_002) against its specification.

Modelling conventions:
* JavaScript numbers holding finite values are modelled as rationals (`ℚ`);
  floating-point rounding and overflow are abstracted away, as the spec's
  "subject to floating-point precision" hedge allows.  Non-finite values
  (NaN, plus or minus infinity), which several claims are about, are
  modelled by the wrapper type `JsNum`.
* The calendar and time-of-day adapters (`@softwareventures/date`,
  `@softwareventures/time`) are external dependencies whose sources are not
  in this repository; they are modelled from the spec (sections 4.1 and 6):
  proleptic Gregorian calendar, astronomical year numbering, reference day 0
  at 1 January 1 CE, with out-of-range month and day carried as pinned down
  by the spec's normalization examples.
* A function that throws is modelled as returning `Option` with `none` for
  the thrown error.
-/

/-- Modelled from the spec: leap-year rule of the proleptic Gregorian
calendar with astronomical year numbering (part of the external calendar
adapter `@softwareventures/date`). -/
def isLeapYear (y : ℤ) : Bool :=
  (y % 4 == 0 && !(y % 100 == 0)) || y % 400 == 0

/-- The extra day contributed by a leap year. -/
def leapN : Bool → ℤ
  | true => 1
  | false => 0

/-- Modelled from the spec: `daysInMonth` keyed on a leap flag. -/
def daysInMonthL (leap : Bool) (month : ℤ) : ℤ :=
  if month = 2 then 28 + leapN leap
  else if month = 4 ∨ month = 6 ∨ month = 9 ∨ month = 11 then 30
  else 31

/-- Modelled from the spec: `daysInMonth(month, year)` of the external
calendar adapter (spec section 6). -/
def daysInMonth (month year : ℤ) : ℤ :=
  daysInMonthL (isLeapYear year) month

/-- Days from 1 January to the first day of `month` of a year with the given
leap flag (used by the modelled calendar adapter). -/
def daysBeforeMonth (leap : Bool) (m : ℤ) : ℤ :=
  if m ≤ 1 then 0 else if m = 2 then 31
  else if m = 3 then 59 + leapN leap
  else if m = 4 then 90 + leapN leap
  else if m = 5 then 120 + leapN leap
  else if m = 6 then 151 + leapN leap
  else if m = 7 then 181 + leapN leap
  else if m = 8 then 212 + leapN leap
  else if m = 9 then 243 + leapN leap
  else if m = 10 then 273 + leapN leap
  else if m = 11 then 304 + leapN leap
  else 334 + leapN leap

/-- Days from the reference day (1 January 1 CE, day 0) to 1 January of
year `y`, proleptic Gregorian, astronomical numbering. -/
def daysBeforeYear (y : ℤ) : ℤ :=
  365 * (y - 1) + (y - 1) / 4 - (y - 1) / 100 + (y - 1) / 400

/-- Modelled from the spec: `toReferenceDays({year, month, day})` of the
external calendar adapter.  Out-of-range `month` carries into `year` and
out-of-range `day` is an offset from the first day of the month, matching
the spec's normalization-carry examples (month 13 rolls to January of the
next year, day 0 is the last day of the previous month). -/
def toReferenceDays (year month day : ℤ) : ℤ :=
  daysBeforeYear (year + (month - 1) / 12)
    + daysBeforeMonth (isLeapYear (year + (month - 1) / 12)) ((month - 1) % 12 + 1)
    + (day - 1)

/-- The year whose span of reference days contains day `n`: an estimate from
the average Gregorian year length of 146097/400 days, corrected by at most
one. -/
def yearOfRefDays (n : ℤ) : ℤ :=
  let y0 := 400 * n / 146097 + 1
  if daysBeforeYear (y0 + 1) ≤ n then y0 + 1 else y0

/-- The month containing day-of-year `doy` (0-based) for the given leap
flag. -/
def monthFromDoy (leap : Bool) (doy : ℤ) : ℤ :=
  if doy < 31 then 1
  else if doy < 59 + leapN leap then 2
  else if doy < 90 + leapN leap then 3
  else if doy < 120 + leapN leap then 4
  else if doy < 151 + leapN leap then 5
  else if doy < 181 + leapN leap then 6
  else if doy < 212 + leapN leap then 7
  else if doy < 243 + leapN leap then 8
  else if doy < 273 + leapN leap then 9
  else if doy < 304 + leapN leap then 10
  else if doy < 334 + leapN leap then 11
  else 12

/-- A `{year, month, day}` record as returned by the calendar adapter. -/
structure RefDate where
  year : ℤ
  month : ℤ
  day : ℤ
deriving DecidableEq, Repr

/-- Modelled from the spec: `fromReferenceDays(n)` of the external calendar
adapter — the inverse of `toReferenceDays` on canonical dates. -/
def fromReferenceDays (n : ℤ) : RefDate :=
  ⟨yearOfRefDays n,
   monthFromDoy (isLeapYear (yearOfRefDays n)) (n - daysBeforeYear (yearOfRefDays n)),
   n - daysBeforeYear (yearOfRefDays n)
     - daysBeforeMonth (isLeapYear (yearOfRefDays n))
         (monthFromDoy (isLeapYear (yearOfRefDays n)) (n - daysBeforeYear (yearOfRefDays n)))
     + 1⟩

theorem leapN_bound (l : Bool) : 0 ≤ leapN l ∧ leapN l ≤ 1 := by
  cases l <;> decide

theorem daysBeforeYear_succ (y : ℤ) :
    daysBeforeYear (y + 1) = daysBeforeYear y + 365 + leapN (isLeapYear y) := by
  have e : y + 1 - 1 = y := by ring
  cases hl : isLeapYear y <;>
    simp only [isLeapYear, Bool.or_eq_true, Bool.and_eq_true, Bool.not_eq_true',
      beq_iff_eq, beq_eq_false_iff_ne, ne_eq, Bool.or_eq_false_iff, Bool.and_eq_false_iff,
      Bool.not_eq_false', Bool.not_eq_true] at hl <;>
    simp only [leapN] <;>
    unfold daysBeforeYear <;> rw [e] <;> omega

theorem daysBeforeYear_mono_nat (a : ℤ) (k : ℕ) :
    daysBeforeYear a + 365 * k ≤ daysBeforeYear (a + k) := by
  induction k with
  | zero => simp
  | succ k ih =>
      have hs := daysBeforeYear_succ (a + k)
      have hb := leapN_bound (isLeapYear (a + k))
      push_cast
      rw [show a + ((k : ℤ) + 1) = a + (k : ℤ) + 1 from by ring]
      push_cast at ih
      omega

theorem daysBeforeYear_mono (a b : ℤ) (h : a ≤ b) :
    daysBeforeYear a + 365 * (b - a) ≤ daysBeforeYear b := by
  have hk := daysBeforeYear_mono_nat a (b - a).toNat
  have e : ((b - a).toNat : ℤ) = b - a := by omega
  rw [e] at hk
  rw [show a + (b - a) = b from by ring] at hk
  exact hk

theorem yearOfRefDays_bracket (n : ℤ) :
    daysBeforeYear (yearOfRefDays n) ≤ n ∧ n < daysBeforeYear (yearOfRefDays n + 1) := by
  unfold yearOfRefDays daysBeforeYear
  simp only []
  split <;> constructor <;> omega

theorem yearOfRefDays_eq (n y : ℤ) (h1 : daysBeforeYear y ≤ n) (h2 : n < daysBeforeYear (y + 1)) :
    yearOfRefDays n = y := by
  obtain ⟨b1, b2⟩ := yearOfRefDays_bracket n
  rcases lt_trichotomy (yearOfRefDays n) y with hlt | heq | hgt
  · have := daysBeforeYear_mono (yearOfRefDays n + 1) y (by omega)
    omega
  · exact heq
  · have := daysBeforeYear_mono (y + 1) (yearOfRefDays n) (by omega)
    omega

theorem monthFromDoy_mem (leap : Bool) (doy : ℤ) (h0 : 0 ≤ doy)
    (h1 : doy < 365 + leapN leap) :
    1 ≤ monthFromDoy leap doy ∧ monthFromDoy leap doy ≤ 12 ∧
      daysBeforeMonth leap (monthFromDoy leap doy) ≤ doy ∧
      doy < daysBeforeMonth leap (monthFromDoy leap doy)
            + daysInMonthL leap (monthFromDoy leap doy) := by
  have hb := leapN_bound leap
  unfold monthFromDoy
  by_cases c1 : doy < 31
  · rw [if_pos c1]; norm_num [daysBeforeMonth, daysInMonthL] <;> omega
  rw [if_neg c1]
  by_cases c2 : doy < 59 + leapN leap
  · rw [if_pos c2]; norm_num [daysBeforeMonth, daysInMonthL] <;> omega
  rw [if_neg c2]
  by_cases c3 : doy < 90 + leapN leap
  · rw [if_pos c3]; norm_num [daysBeforeMonth, daysInMonthL] <;> omega
  rw [if_neg c3]
  by_cases c4 : doy < 120 + leapN leap
  · rw [if_pos c4]; norm_num [daysBeforeMonth, daysInMonthL] <;> omega
  rw [if_neg c4]
  by_cases c5 : doy < 151 + leapN leap
  · rw [if_pos c5]; norm_num [daysBeforeMonth, daysInMonthL] <;> omega
  rw [if_neg c5]
  by_cases c6 : doy < 181 + leapN leap
  · rw [if_pos c6]; norm_num [daysBeforeMonth, daysInMonthL] <;> omega
  rw [if_neg c6]
  by_cases c7 : doy < 212 + leapN leap
  · rw [if_pos c7]; norm_num [daysBeforeMonth, daysInMonthL] <;> omega
  rw [if_neg c7]
  by_cases c8 : doy < 243 + leapN leap
  · rw [if_pos c8]; norm_num [daysBeforeMonth, daysInMonthL] <;> omega
  rw [if_neg c8]
  by_cases c9 : doy < 273 + leapN leap
  · rw [if_pos c9]; norm_num [daysBeforeMonth, daysInMonthL] <;> omega
  rw [if_neg c9]
  by_cases c10 : doy < 304 + leapN leap
  · rw [if_pos c10]; norm_num [daysBeforeMonth, daysInMonthL] <;> omega
  rw [if_neg c10]
  by_cases c11 : doy < 334 + leapN leap
  · rw [if_pos c11]; norm_num [daysBeforeMonth, daysInMonthL] <;> omega
  rw [if_neg c11]
  norm_num [daysBeforeMonth, daysInMonthL] <;> omega

theorem daysBeforeMonth_adj (leap : Bool) (m : ℤ) (h1 : 1 ≤ m) (h2 : m ≤ 11) :
    daysBeforeMonth leap m + daysInMonthL leap m = daysBeforeMonth leap (m + 1) := by
  have hb := leapN_bound leap
  interval_cases m <;> norm_num [daysBeforeMonth, daysInMonthL] <;> omega

theorem daysInMonthL_pos (leap : Bool) (m : ℤ) (h1 : 1 ≤ m) (h2 : m ≤ 12) :
    0 < daysInMonthL leap m := by
  have hb := leapN_bound leap
  interval_cases m <;> norm_num [daysInMonthL] <;> omega

theorem daysBeforeMonth_mono (leap : Bool) (a : ℤ) (k : ℕ) (h1 : 1 ≤ a) (h2 : a + k ≤ 12) :
    daysBeforeMonth leap a ≤ daysBeforeMonth leap (a + k) := by
  induction k with
  | zero => simp
  | succ k ih =>
      have hadj := daysBeforeMonth_adj leap (a + k) (by omega) (by omega)
      have hpos := daysInMonthL_pos leap (a + k) (by omega) (by omega)
      have := ih (by omega)
      push_cast
      rw [show a + ((k : ℤ) + 1) = a + (k : ℤ) + 1 from by ring]
      omega

theorem daysBeforeMonth_add_daysInMonthL (leap : Bool) (m : ℤ) (hm1 : 1 ≤ m) (hm2 : m ≤ 12) :
    0 ≤ daysBeforeMonth leap m ∧
      daysBeforeMonth leap m + daysInMonthL leap m ≤ 365 + leapN leap := by
  have hb := leapN_bound leap
  interval_cases m <;> norm_num [daysBeforeMonth, daysInMonthL] <;> omega

theorem monthFromDoy_eq (leap : Bool) (m doy : ℤ) (hm1 : 1 ≤ m) (hm2 : m ≤ 12)
    (hlo : daysBeforeMonth leap m ≤ doy)
    (hhi : doy < daysBeforeMonth leap m + daysInMonthL leap m) :
    monthFromDoy leap doy = m := by
  obtain ⟨hd0, hd1⟩ := daysBeforeMonth_add_daysInMonthL leap m hm1 hm2
  obtain ⟨k1, k2, k3, k4⟩ := monthFromDoy_mem leap doy (by omega) (by omega)
  set k := monthFromDoy leap doy with hk
  rcases lt_trichotomy k m with h | h | h
  · have hadj := daysBeforeMonth_adj leap k (by omega) (by omega)
    have hmono := daysBeforeMonth_mono leap (k + 1) (m - k - 1).toNat (by omega) (by omega)
    rw [show (k + 1) + ((m - k - 1).toNat : ℤ) = m from by omega] at hmono
    omega
  · exact h
  · have hadj := daysBeforeMonth_adj leap m (by omega) (by omega)
    have hmono := daysBeforeMonth_mono leap (m + 1) (k - m - 1).toNat (by omega) (by omega)
    rw [show (m + 1) + ((k - m - 1).toNat : ℤ) = k from by omega] at hmono
    omega

/-- Round trip: converting a reference day count to calendar fields and back
is the identity. -/
theorem toReferenceDays_fromReferenceDays (n : ℤ) :
    toReferenceDays (fromReferenceDays n).year (fromReferenceDays n).month
      (fromReferenceDays n).day = n := by
  obtain ⟨b1, b2⟩ := yearOfRefDays_bracket n
  simp only [fromReferenceDays]
  set y := yearOfRefDays n with hy
  have hs := daysBeforeYear_succ y
  set doy := n - daysBeforeYear y with hdoy
  obtain ⟨hm1, hm2, hm3, hm4⟩ := monthFromDoy_mem (isLeapYear y) doy (by omega) (by omega)
  set m := monthFromDoy (isLeapYear y) doy with hm
  simp only [toReferenceDays]
  have e1 : (m - 1) / 12 = 0 := by omega
  have e2 : (m - 1) % 12 = m - 1 := by omega
  rw [e1, e2]
  have e3 : m - 1 + 1 = m := by ring
  rw [e3]
  simp only [add_zero]
  omega

/-- Round trip: converting canonical calendar fields to a reference day
count and back is the identity. -/
theorem fromReferenceDays_toReferenceDays (y m d : ℤ) (hm1 : 1 ≤ m) (hm2 : m ≤ 12)
    (hd1 : 1 ≤ d) (hd2 : d ≤ daysInMonth m y) :
    fromReferenceDays (toReferenceDays y m d) = ⟨y, m, d⟩ := by
  have e1 : (m - 1) / 12 = 0 := by omega
  have e2 : (m - 1) % 12 = m - 1 := by omega
  have e3 : m - 1 + 1 = m := by ring
  have htr : toReferenceDays y m d
      = daysBeforeYear y + daysBeforeMonth (isLeapYear y) m + (d - 1) := by
    simp only [toReferenceDays, e1, e2, e3, add_zero]
  obtain ⟨hb0, hb1⟩ := daysBeforeMonth_add_daysInMonthL (isLeapYear y) m hm1 hm2
  have hdim : daysInMonth m y = daysInMonthL (isLeapYear y) m := rfl
  rw [hdim] at hd2
  have hs := daysBeforeYear_succ y
  have hbr1 : daysBeforeYear y ≤ toReferenceDays y m d := by omega
  have hbr2 : toReferenceDays y m d < daysBeforeYear (y + 1) := by omega
  have hyeq : yearOfRefDays (toReferenceDays y m d) = y :=
    yearOfRefDays_eq _ y hbr1 hbr2
  simp only [fromReferenceDays, hyeq]
  have hmeq : monthFromDoy (isLeapYear y) (toReferenceDays y m d - daysBeforeYear y) = m := by
    apply monthFromDoy_eq (isLeapYear y) m _ hm1 hm2 <;> omega
  rw [hmeq]
  have hday : toReferenceDays y m d - daysBeforeYear y - daysBeforeMonth (isLeapYear y) m + 1
      = d := by omega
  rw [hday]

/-- Helper: the floor of `(N*k + x)/k` is `N` when `0 ≤ x < k`. -/
theorem floor_mul_add (N k : ℤ) (hk : 0 < k) (x : ℚ) (h1 : 0 ≤ x) (h2 : x < k) :
    ⌊((N : ℚ) * k + x) / (k : ℚ)⌋ = N := by
  have hkq : (0 : ℚ) < k := by exact_mod_cast hk
  have e : ((N : ℚ) * k + x) / (k : ℚ) = (N : ℚ) + x / k := by
    field_simp
  rw [e, Int.floor_int_add]
  have e0 : ⌊x / (k : ℚ)⌋ = 0 := by
    rw [Int.floor_eq_zero_iff]
    exact ⟨div_nonneg h1 hkq.le, (div_lt_one hkq).mpr h2⟩
  omega

/-- Modelled from the spec: `toReferenceSeconds({hours, minutes, seconds})`
of the external time-of-day adapter `@softwareventures/time` (spec section
6): the count of seconds within a day. -/
def timeToReferenceSeconds (hours minutes seconds : ℚ) : ℚ :=
  hours * 3600 + minutes * 60 + seconds

/-- An `{hours, minutes, seconds}` record as returned by the time adapter. -/
structure RefTime where
  hours : ℚ
  minutes : ℚ
  seconds : ℚ
deriving DecidableEq, Repr

/-- Modelled from the spec: `fromReferenceSeconds(r)` of the external
time-of-day adapter — the inverse of `timeToReferenceSeconds` on canonical
times of day. -/
def timeFromReferenceSeconds (r : ℚ) : RefTime :=
  ⟨(⌊r / 3600⌋ : ℚ), (⌊(r - 3600 * ⌊r / 3600⌋) / 60⌋ : ℚ),
   r - 3600 * ⌊r / 3600⌋ - 60 * ⌊(r - 3600 * ⌊r / 3600⌋) / 60⌋⟩

theorem timeTo_timeFrom (r : ℚ) :
    timeToReferenceSeconds (timeFromReferenceSeconds r).hours
      (timeFromReferenceSeconds r).minutes (timeFromReferenceSeconds r).seconds = r := by
  simp only [timeFromReferenceSeconds, timeToReferenceSeconds]
  ring

theorem timeFrom_timeTo (h m : ℤ) (s : ℚ)
    (hm1 : 0 ≤ m) (hm2 : m ≤ 59) (hs1 : 0 ≤ s) (hs2 : s < 60) :
    timeFromReferenceSeconds (timeToReferenceSeconds h m s) = ⟨(h : ℚ), (m : ℚ), s⟩ := by
  have hfh : ⌊((h : ℚ) * 3600 + (m : ℚ) * 60 + s) / 3600⌋ = h := by
    have := floor_mul_add h 3600 (by norm_num) ((m : ℚ) * 60 + s) (by positivity)
      (by push_cast; linarith [show (m : ℚ) ≤ 59 from by exact_mod_cast hm2])
    push_cast at this ⊢
    rw [show (h : ℚ) * 3600 + (m : ℚ) * 60 + s = (h : ℚ) * 3600 + ((m : ℚ) * 60 + s) from by ring]
    exact this
  simp only [timeFromReferenceSeconds, timeToReferenceSeconds, hfh]
  have e1 : (h : ℚ) * 3600 + (m : ℚ) * 60 + s - 3600 * (h : ℚ) = (m : ℚ) * 60 + s := by ring
  rw [e1]
  have hfm : ⌊((m : ℚ) * 60 + s) / 60⌋ = m := by
    have := floor_mul_add m 60 (by norm_num) s hs1 (by exact_mod_cast hs2)
    push_cast at this ⊢
    exact this
  rw [hfm]
  have e2 : (m : ℚ) * 60 + s - 60 * (m : ℚ) = s := by ring
  rw [e2]

/-- The canonical `Timestamp` record of src/index.ts.  The `type` field holds
the type-discriminator string (the interface declares it as the literal type
`"Timestamp"`; `fromReferenceSeconds` writes the string `"Timestamp"`). -/
structure Timestamp where
  type : String
  year : ℚ
  month : ℚ
  day : ℚ
  hours : ℚ
  minutes : ℚ
  seconds : ℚ
deriving DecidableEq, Repr

/-- `TimestampOptions` of src/index.ts: each property may be absent
(`none`).  A present numeric property is a finite number here; the
non-finite cases are handled by the `JsNum` layer below. -/
structure TimestampOptions where
  type : Option String := none
  year : Option ℚ := none
  month : Option ℚ := none
  day : Option ℚ := none
  hours : Option ℚ := none
  minutes : Option ℚ := none
  seconds : Option ℚ := none
deriving DecidableEq, Repr

/-- A `Timestamp` used where `TimestampOptions` is expected (src/index.ts:
"An instance of Timestamp may always be used in place of
TimestampOptions"). -/
def Timestamp.toOptions (t : Timestamp) : TimestampOptions :=
  ⟨some t.type, some t.year, some t.month, some t.day,
   some t.hours, some t.minutes, some t.seconds⟩

/-- src/index.ts `toReferenceSeconds` (lines 306-318): applies the `?? `
defaults, converts the date triple via the calendar adapter and the time
triple via the time adapter, and returns `days * 86400 + secondsOfDay`.
The calendar adapter is contracted on integers (spec section 6), so the
model floors the date fields at that boundary. -/
def toReferenceSeconds (t : TimestampOptions) : ℚ :=
  (toReferenceDays ⌊t.year.getD 1⌋ ⌊t.month.getD 1⌋ ⌊t.day.getD 1⌋ : ℚ) * 86400
    + timeToReferenceSeconds (t.hours.getD 0) (t.minutes.getD 0) (t.seconds.getD 0)

/-- src/index.ts `fromReferenceSeconds` (lines 332-342) after its
`isFinite` guard: `referenceDays = Math.floor(referenceSeconds / 86400)`,
remainder `referenceSeconds - referenceDays * 86400`, both converted back
through the adapters and assembled with the `"Timestamp"` tag. -/
def fromReferenceSecondsQ (referenceSeconds : ℚ) : Timestamp :=
  ⟨"Timestamp",
   ((fromReferenceDays ⌊referenceSeconds / 86400⌋).year : ℚ),
   ((fromReferenceDays ⌊referenceSeconds / 86400⌋).month : ℚ),
   ((fromReferenceDays ⌊referenceSeconds / 86400⌋).day : ℚ),
   (timeFromReferenceSeconds (referenceSeconds - (⌊referenceSeconds / 86400⌋ : ℚ) * 86400)).hours,
   (timeFromReferenceSeconds (referenceSeconds - (⌊referenceSeconds / 86400⌋ : ℚ) * 86400)).minutes,
   (timeFromReferenceSeconds (referenceSeconds - (⌊referenceSeconds / 86400⌋ : ℚ) * 86400)).seconds⟩

/-- src/index.ts `timestamp` (lines 257-259): the Normalizer. -/
def timestamp (options : TimestampOptions) : Timestamp :=
  fromReferenceSecondsQ (toReferenceSeconds options)

/-- npm `is-integer`: `Math.floor(x) === x` (for a finite number `x`). -/
def isIntegerQ (q : ℚ) : Bool := (⌊q⌋ : ℚ) == q

/-- npm `is-integer-in-range`: integer and within `[lo, hi]`. -/
def isIntegerInRange (q lo hi : ℚ) : Bool :=
  isIntegerQ q && decide (lo ≤ q) && decide (q ≤ hi)

/-- src/index.ts `isValid` (lines 197-208), field for field.  The `day`
upper bound calls `daysInMonth(timestamp.month, timestamp.year)`; when that
conjunct is reached with `month`/`year` absent the whole conjunction is
already false, so the model's `getD 1` defaults there are unobservable. -/
def isValid (t : TimestampOptions) : Bool :=
  (t.type.elim true (· == "Timestamp")) &&
  (t.year.elim false isIntegerQ) &&
  (t.month.elim false (fun m => isIntegerInRange m 1 12)) &&
  (t.day.elim false (fun d =>
    isIntegerInRange d 1 ((daysInMonth ⌊t.month.getD 1⌋ ⌊t.year.getD 1⌋ : ℤ) : ℚ))) &&
  (t.hours.elim false (fun h => isIntegerInRange h 0 23)) &&
  isIntegerInRange (t.minutes.getD 0) 0 59 &&
  decide (0 ≤ t.seconds.getD 0) && decide (t.seconds.getD 0 < 60)

/-- src/index.ts `isTimestamp` (lines 155-174), restricted to the record
shapes representable in this model (a present numeric field is `typeof
"number"` by construction).  The tag comparison is the source's literal
`value.type === "timestamp"`. -/
def isTimestamp (t : TimestampOptions) : Bool :=
  (t.type.elim false (· == "timestamp")) &&
  t.year.isSome && t.month.isSome && t.day.isSome &&
  t.hours.isSome && t.minutes.isSome && t.seconds.isSome

/-- src/index.ts `isValidTimestamp` (lines 185-187). -/
def isValidTimestamp (t : TimestampOptions) : Bool :=
  isTimestamp t && isValid t

/-- The reference-seconds value of a normalized timestamp converts back to
itself: `toReferenceSeconds` is a left inverse of `fromReferenceSeconds`. -/
theorem toRef_fromRef (v : ℚ) :
    toReferenceSeconds (fromReferenceSecondsQ v).toOptions = v := by
  simp only [fromReferenceSecondsQ, Timestamp.toOptions, toReferenceSeconds, Option.getD_some,
    Int.floor_intCast]
  rw [toReferenceDays_fromReferenceDays]
  rw [timeTo_timeFrom]
  ring

/-- `timestamp` is idempotent: normalizing a normalized timestamp is the
identity. -/
theorem timestamp_idem (o : TimestampOptions) :
    timestamp (timestamp o).toOptions = timestamp o := by
  unfold timestamp
  rw [toRef_fromRef]

/-- For a canonical (valid) `Timestamp`, the reference-seconds round trip is
the identity. -/
theorem fromRef_toRef_of_isValid (t : Timestamp) (h : isValid t.toOptions = true) :
    fromReferenceSecondsQ (toReferenceSeconds t.toOptions) = t := by
  obtain ⟨ty, yy, mm, dd, hh, mi, ss⟩ := t
  simp only [isValid, Timestamp.toOptions, Option.elim_some, Option.getD_some,
    Bool.and_eq_true] at h
  obtain ⟨⟨⟨⟨⟨⟨⟨htype, hyear⟩, hmonth⟩, hday⟩, hhours⟩, hmins⟩, hsec1⟩, hsec2⟩ := h
  rw [beq_iff_eq] at htype
  simp only [isIntegerQ, beq_iff_eq] at hyear
  simp only [isIntegerInRange, isIntegerQ, Bool.and_eq_true, beq_iff_eq,
    decide_eq_true_eq] at hmonth hday hhours hmins
  obtain ⟨⟨hmI, hm1⟩, hm2⟩ := hmonth
  obtain ⟨⟨hdI, hd1⟩, hd2⟩ := hday
  obtain ⟨⟨hhI, hh1⟩, hh2⟩ := hhours
  obtain ⟨⟨hiI, hi1⟩, hi2⟩ := hmins
  have hs1 : (0 : ℚ) ≤ ss := of_decide_eq_true hsec1
  have hs2 : ss < 60 := of_decide_eq_true hsec2
  simp only [toReferenceSeconds, Timestamp.toOptions, Option.getD_some, timeToReferenceSeconds]
  set Y := ⌊yy⌋ with hY
  set M := ⌊mm⌋ with hM
  set D := ⌊dd⌋ with hD
  set H := ⌊hh⌋ with hH
  set Mi := ⌊mi⌋ with hMi
  have hyc : (Y : ℚ) = yy := hyear
  have hmc : (M : ℚ) = mm := hmI
  have hdc : (D : ℚ) = dd := hdI
  have hhc : (H : ℚ) = hh := hhI
  have hic : (Mi : ℚ) = mi := hiI
  have hM1 : 1 ≤ M := by rw [← hmc] at hm1; exact_mod_cast hm1
  have hM2 : M ≤ 12 := by rw [← hmc] at hm2; exact_mod_cast hm2
  have hD1 : 1 ≤ D := by rw [← hdc] at hd1; exact_mod_cast hd1
  have hD2 : D ≤ daysInMonth M Y := by rw [← hdc] at hd2; exact_mod_cast hd2
  have hH1 : 0 ≤ H := by rw [← hhc] at hh1; exact_mod_cast hh1
  have hH2 : H ≤ 23 := by rw [← hhc] at hh2; exact_mod_cast hh2
  have hMi1 : 0 ≤ Mi := by rw [← hic] at hi1; exact_mod_cast hi1
  have hMi2 : Mi ≤ 59 := by rw [← hic] at hi2; exact_mod_cast hi2
  rw [← hyc, ← hmc, ← hdc, ← hhc, ← hic] at *
  set N := toReferenceDays Y M D with hN
  set sod := (H : ℚ) * 3600 + (Mi : ℚ) * 60 + ss with hsod
  have hsod0 : 0 ≤ sod := by
    rw [hsod]
    have : (0 : ℚ) ≤ (H : ℚ) := by exact_mod_cast hH1
    have : (0 : ℚ) ≤ (Mi : ℚ) := by exact_mod_cast hMi1
    positivity
  have hsodlt : sod < 86400 := by
    rw [hsod]
    have c1 : (H : ℚ) ≤ 23 := by exact_mod_cast hH2
    have c2 : (Mi : ℚ) ≤ 59 := by exact_mod_cast hMi2
    linarith
  have hfl : ⌊((N : ℚ) * 86400 + sod) / 86400⌋ = N := by
    have := floor_mul_add N 86400 (by norm_num) sod hsod0 (by exact_mod_cast hsodlt)
    push_cast at this ⊢
    exact this
  have hgoal : (N : ℚ) * 86400 + ((H : ℚ) * 3600 + (Mi : ℚ) * 60 + ss)
      = (N : ℚ) * 86400 + sod := by rw [hsod]
  rw [hgoal]
  simp only [fromReferenceSecondsQ, hfl]
  rw [fromReferenceDays_toReferenceDays Y M D hM1 hM2 hD1 hD2]
  have hrem : (N : ℚ) * 86400 + sod - (N : ℚ) * 86400 = sod := by ring
  rw [hrem, hsod]
  have htt : (H : ℚ) * 3600 + (Mi : ℚ) * 60 + ss
      = timeToReferenceSeconds (H : ℚ) (Mi : ℚ) ss := rfl
  rw [htt, timeFrom_timeTo H Mi ss hMi1 hMi2 hs1 hs2]
  rw [htype]

/-- Evaluation lemma: `timestamp` at an input whose defaulted fields are the
integers `y m d h mi` and seconds `ss + f` with fractional part
`0 ≤ f < 1` is given by pure integer arithmetic on the linear scale
`T = toReferenceDays y m d * 86400 + h*3600 + mi*60 + ss`. -/
theorem timestamp_eval (o : TimestampOptions) (y m d h mi ss T : ℤ) (f : ℚ)
    (hy : ⌊o.year.getD 1⌋ = y) (hm : ⌊o.month.getD 1⌋ = m) (hd : ⌊o.day.getD 1⌋ = d)
    (hh : o.hours.getD 0 = (h : ℚ)) (hmi : o.minutes.getD 0 = (mi : ℚ))
    (hs : o.seconds.getD 0 = (ss : ℚ) + f) (hf0 : 0 ≤ f) (hf1 : f < 1)
    (hT : toReferenceDays y m d * 86400 + h * 3600 + mi * 60 + ss = T) :
    timestamp o = ⟨"Timestamp",
      ((fromReferenceDays (T / 86400)).year : ℚ),
      ((fromReferenceDays (T / 86400)).month : ℚ),
      ((fromReferenceDays (T / 86400)).day : ℚ),
      ((T % 86400 / 3600 : ℤ) : ℚ),
      ((T % 86400 % 3600 / 60 : ℤ) : ℚ),
      ((T % 86400 % 3600 % 60 : ℤ) : ℚ) + f⟩ := by
  have hv : toReferenceSeconds o = (T : ℚ) + f := by
    simp only [toReferenceSeconds, timeToReferenceSeconds, hy, hm, hd, hh, hmi, hs]
    rw [← hT]
    push_cast
    ring
  unfold timestamp
  rw [hv]
  have hqr : 86400 * (T / 86400) + T % 86400 = T := Int.ediv_add_emod T 86400
  have hr0 : 0 ≤ T % 86400 := Int.emod_nonneg T (by norm_num)
  have hrlt : T % 86400 < 86400 := Int.emod_lt_of_pos T (by norm_num)
  have hrq : (0 : ℚ) ≤ ((T % 86400 : ℤ) : ℚ) + f := by
    have : (0 : ℚ) ≤ ((T % 86400 : ℤ) : ℚ) := by exact_mod_cast hr0
    linarith
  have hrq2 : ((T % 86400 : ℤ) : ℚ) + f < 86400 := by
    have : ((T % 86400 : ℤ) : ℚ) ≤ 86399 := by exact_mod_cast (by omega : T % 86400 ≤ 86399)
    linarith
  have hfl1 : ⌊((T : ℚ) + f) / 86400⌋ = T / 86400 := by
    have he : ((T : ℚ) + f) = ((T / 86400 : ℤ) : ℚ) * 86400 + (((T % 86400 : ℤ) : ℚ) + f) := by
      rw [show ((T : ℚ) + f) = ((86400 * (T / 86400) + T % 86400 : ℤ) : ℚ) + f from by rw [hqr]]
      push_cast
      ring
    rw [he]
    have := floor_mul_add (T / 86400) 86400 (by norm_num) (((T % 86400 : ℤ) : ℚ) + f) hrq
      (by exact_mod_cast hrq2)
    push_cast at this ⊢
    exact this
  simp only [fromReferenceSecondsQ, hfl1]
  have hrem : (T : ℚ) + f - ((T / 86400 : ℤ) : ℚ) * 86400 = ((T % 86400 : ℤ) : ℚ) + f := by
    rw [show ((T : ℚ) + f) = ((86400 * (T / 86400) + T % 86400 : ℤ) : ℚ) + f from by rw [hqr]]
    push_cast
    ring
  rw [hrem]
  set r : ℤ := T % 86400 with hrdef
  have hq2r : 3600 * (r / 3600) + r % 3600 = r := Int.ediv_add_emod r 3600
  have hr20 : 0 ≤ r % 3600 := Int.emod_nonneg r (by norm_num)
  have hr2lt : r % 3600 < 3600 := Int.emod_lt_of_pos r (by norm_num)
  have hfl2 : ⌊(((r : ℤ) : ℚ) + f) / 3600⌋ = r / 3600 := by
    have he : (((r : ℤ) : ℚ) + f) = ((r / 3600 : ℤ) : ℚ) * 3600 + (((r % 3600 : ℤ) : ℚ) + f) := by
      rw [show (((r : ℤ) : ℚ) + f) = ((3600 * (r / 3600) + r % 3600 : ℤ) : ℚ) + f from by
        rw [hq2r]]
      push_cast
      ring
    rw [he]
    have hx0 : (0 : ℚ) ≤ ((r % 3600 : ℤ) : ℚ) + f := by
      have : (0 : ℚ) ≤ ((r % 3600 : ℤ) : ℚ) := by exact_mod_cast hr20
      linarith
    have hx1 : ((r % 3600 : ℤ) : ℚ) + f < 3600 := by
      have : ((r % 3600 : ℤ) : ℚ) ≤ 3599 := by exact_mod_cast (by omega : r % 3600 ≤ 3599)
      linarith
    have := floor_mul_add (r / 3600) 3600 (by norm_num) (((r % 3600 : ℤ) : ℚ) + f) hx0
      (by exact_mod_cast hx1)
    push_cast at this ⊢
    exact this
  have hrem2 : ((r : ℤ) : ℚ) + f - 3600 * ((r / 3600 : ℤ) : ℚ) = ((r % 3600 : ℤ) : ℚ) + f := by
    rw [show (((r : ℤ) : ℚ) + f) = ((3600 * (r / 3600) + r % 3600 : ℤ) : ℚ) + f from by rw [hq2r]]
    push_cast
    ring
  set r2 : ℤ := r % 3600 with hr2def
  have hq3r : 60 * (r2 / 60) + r2 % 60 = r2 := Int.ediv_add_emod r2 60
  have hr30 : 0 ≤ r2 % 60 := Int.emod_nonneg r2 (by norm_num)
  have hr3lt : r2 % 60 < 60 := Int.emod_lt_of_pos r2 (by norm_num)
  have hfl3 : ⌊(((r2 : ℤ) : ℚ) + f) / 60⌋ = r2 / 60 := by
    have he : (((r2 : ℤ) : ℚ) + f) = ((r2 / 60 : ℤ) : ℚ) * 60 + (((r2 % 60 : ℤ) : ℚ) + f) := by
      rw [show (((r2 : ℤ) : ℚ) + f) = ((60 * (r2 / 60) + r2 % 60 : ℤ) : ℚ) + f from by rw [hq3r]]
      push_cast
      ring
    rw [he]
    have hx0 : (0 : ℚ) ≤ ((r2 % 60 : ℤ) : ℚ) + f := by
      have : (0 : ℚ) ≤ ((r2 % 60 : ℤ) : ℚ) := by exact_mod_cast hr30
      linarith
    have hx1 : ((r2 % 60 : ℤ) : ℚ) + f < 60 := by
      have : ((r2 % 60 : ℤ) : ℚ) ≤ 59 := by exact_mod_cast (by omega : r2 % 60 ≤ 59)
      linarith
    have := floor_mul_add (r2 / 60) 60 (by norm_num) (((r2 % 60 : ℤ) : ℚ) + f) hx0
      (by exact_mod_cast hx1)
    push_cast at this ⊢
    exact this
  simp only [timeFromReferenceSeconds, hfl2, hrem2, hfl3]
  have hrem3 : ((r2 : ℤ) : ℚ) + f - 60 * ((r2 / 60 : ℤ) : ℚ) = ((r2 % 60 : ℤ) : ℚ) + f := by
    rw [show (((r2 : ℤ) : ℚ) + f) = ((60 * (r2 / 60) + r2 % 60 : ℤ) : ℚ) + f from by rw [hq3r]]
    push_cast
    ring
  rw [hrem3]

/-- Claim C2: round trip and idempotence of normalization — for every
canonical (valid) `Timestamp` `t`, `fromReferenceSeconds (toReferenceSeconds
t)` equals `t`, and for every valid `TimestampOptions` `o`,
`timestamp (timestamp o)` equals `timestamp o` (fractional seconds are exact
rationals in this model, which abstracts floating-point precision). -/
theorem claim_C2_roundtrip_idempotence :
    (∀ t : Timestamp, isValid t.toOptions = true →
      fromReferenceSecondsQ (toReferenceSeconds t.toOptions) = t) ∧
    (∀ o : TimestampOptions, isValid o = true →
      timestamp (timestamp o).toOptions = timestamp o) :=
  ⟨fun t h => fromRef_toRef_of_isValid t h, fun o _ => timestamp_idem o⟩

set_option maxRecDepth 4000 in
/-- Witness for C2 at concrete inputs: the canonical timestamp
2021-04-30T13:11:27.245Z round-trips, and normalizing the valid options
record for 2021-02-28T00:00:27.245 twice equals normalizing it once. -/
theorem claim_C2_roundtrip_idempotence_witness :
    fromReferenceSecondsQ
        (toReferenceSeconds (Timestamp.mk "Timestamp" 2021 4 30 13 11 27.245).toOptions)
      = Timestamp.mk "Timestamp" 2021 4 30 13 11 27.245 ∧
    timestamp (timestamp ⟨none, some 2021, some 2, some 28, some 0, none, some 27.245⟩).toOptions
      = timestamp ⟨none, some 2021, some 2, some 28, some 0, none, some 27.245⟩ :=
  ⟨claim_C2_roundtrip_idempotence.1 _
    (by rw [show (27.245 : ℚ) = mkRat 5449 200 from by rw [Rat.mkRat_eq_div]; norm_num]; decide),
   claim_C2_roundtrip_idempotence.2 _
    (by rw [show (27.245 : ℚ) = mkRat 5449 200 from by rw [Rat.mkRat_eq_div]; norm_num]; decide)⟩

/-- Claim C4: for every finite `value`, `fromReferenceSeconds` splits it into
the day count `⌊value / 86400⌋` (rounding toward negative infinity) and the
seconds-of-day remainder `value - days * 86400`, which always lies in
`[0, 86400)` — also for negative `value` — and assembles the `Timestamp`
from the calendar adapter applied to the day count and the time adapter
applied to the remainder. -/
theorem claim_C4_fromReferenceSeconds_split (v : ℚ) :
    0 ≤ v - (⌊v / 86400⌋ : ℚ) * 86400 ∧
    v - (⌊v / 86400⌋ : ℚ) * 86400 < 86400 ∧
    fromReferenceSecondsQ v = ⟨"Timestamp",
      ((fromReferenceDays ⌊v / 86400⌋).year : ℚ),
      ((fromReferenceDays ⌊v / 86400⌋).month : ℚ),
      ((fromReferenceDays ⌊v / 86400⌋).day : ℚ),
      (timeFromReferenceSeconds (v - (⌊v / 86400⌋ : ℚ) * 86400)).hours,
      (timeFromReferenceSeconds (v - (⌊v / 86400⌋ : ℚ) * 86400)).minutes,
      (timeFromReferenceSeconds (v - (⌊v / 86400⌋ : ℚ) * 86400)).seconds⟩ := by
  have h1 : (⌊v / 86400⌋ : ℚ) ≤ v / 86400 := Int.floor_le _
  have h2 : v / 86400 < ⌊v / 86400⌋ + 1 := Int.lt_floor_add_one _
  have h1m : (⌊v / 86400⌋ : ℚ) * 86400 ≤ v := by
    rw [le_div_iff₀ (by norm_num : (0 : ℚ) < 86400)] at h1
    exact h1
  have h2m : v < ((⌊v / 86400⌋ : ℚ) + 1) * 86400 := by
    rw [div_lt_iff₀ (by norm_num : (0 : ℚ) < 86400)] at h2
    exact h2
  refine ⟨by linarith, by linarith, rfl⟩

/-- Claim C5: normalization carry — month 13 of 2021 rolls to January 2022;
day 0 of March 2021 is 28 February 2021 (2021 is not a leap year); day 0 of
March 2020 is the canonical timestamp for 29 February 2020 (2020 is a leap
year). -/
theorem claim_C5_normalization_carry :
    timestamp ⟨none, some 2021, some 13, some 1, none, none, none⟩
        = timestamp ⟨none, some 2022, some 1, some 1, none, none, none⟩ ∧
    timestamp ⟨none, some 2021, some 3, some 0, none, none, none⟩
        = timestamp ⟨none, some 2021, some 2, some 28, none, none, none⟩ ∧
    timestamp ⟨none, some 2020, some 3, some 0, none, none, none⟩
        = ⟨"Timestamp", 2020, 2, 29, 0, 0, 0⟩ := by
  refine ⟨?_, ?_, ?_⟩
  · rw [timestamp_eval _ 2021 13 1 0 0 0 63776592000 0 (by norm_num) (by norm_num) (by norm_num)
        (by norm_num) (by norm_num) (by norm_num) le_rfl (by norm_num) (by decide),
      timestamp_eval _ 2022 1 1 0 0 0 63776592000 0 (by norm_num) (by norm_num) (by norm_num)
        (by norm_num) (by norm_num) (by norm_num) le_rfl (by norm_num) (by decide)]
  · rw [timestamp_eval _ 2021 3 0 0 0 0 63750067200 0 (by norm_num) (by norm_num) (by norm_num)
        (by norm_num) (by norm_num) (by norm_num) le_rfl (by norm_num) (by decide),
      timestamp_eval _ 2021 2 28 0 0 0 63750067200 0 (by norm_num) (by norm_num) (by norm_num)
        (by norm_num) (by norm_num) (by norm_num) le_rfl (by norm_num) (by decide)]
  · rw [timestamp_eval _ 2020 3 0 0 0 0 63718531200 0 (by norm_num) (by norm_num) (by norm_num)
        (by norm_num) (by norm_num) (by norm_num) le_rfl (by norm_num) (by decide)]
    rw [show fromReferenceDays (63718531200 / 86400) = ⟨2020, 2, 29⟩ from by decide]
    norm_num

/-- A JavaScript number: a finite value (an exact rational here) or one of
the non-finite values NaN, +Infinity, -Infinity. -/
inductive JsNum where
  | fin : ℚ → JsNum
  | nan : JsNum
  | posInf : JsNum
  | negInf : JsNum
deriving DecidableEq, Repr

/-- `Number.isFinite`. -/
def JsNum.isFinite : JsNum → Bool
  | .fin _ => true
  | _ => false

/-- IEEE-style addition on `JsNum` (exact on finite values): NaN absorbs,
opposite infinities give NaN. -/
def jsAdd : JsNum → JsNum → JsNum
  | .fin a, .fin b => .fin (a + b)
  | .nan, _ => .nan
  | _, .nan => .nan
  | .posInf, .negInf => .nan
  | .negInf, .posInf => .nan
  | .posInf, _ => .posInf
  | _, .posInf => .posInf
  | .negInf, _ => .negInf
  | _, .negInf => .negInf

/-- Multiplication by a positive finite constant (the `* 86400`, `* 3600`,
`* 60` scalings of the conversion pipeline). -/
def jsMulPos (x : JsNum) (c : ℚ) : JsNum :=
  match x with
  | .fin a => .fin (a * c)
  | .nan => .nan
  | .posInf => .posInf
  | .negInf => .negInf

/-- JavaScript `<` on numbers: false whenever an operand is NaN. -/
def jsLt : JsNum → JsNum → Bool
  | .nan, _ => false
  | _, .nan => false
  | .fin a, .fin b => decide (a < b)
  | .negInf, .negInf => false
  | .negInf, _ => true
  | _, .negInf => false
  | .posInf, _ => false
  | .fin _, .posInf => true

/-- JavaScript `<=` on numbers: false whenever an operand is NaN. -/
def jsLe : JsNum → JsNum → Bool
  | .nan, _ => false
  | _, .nan => false
  | .fin a, .fin b => decide (a ≤ b)
  | .negInf, _ => true
  | _, .posInf => true
  | .posInf, _ => false
  | .fin _, .negInf => false

/-- JavaScript strict equality `===` on numbers: false whenever an operand
is NaN (in particular `NaN === NaN` is false). -/
def jsStrictEq : JsNum → JsNum → Bool
  | .nan, _ => false
  | _, .nan => false
  | .fin a, .fin b => decide (a = b)
  | .posInf, .posInf => true
  | .negInf, .negInf => true
  | _, _ => false

/-- The `Comparison` result type of `@softwareventures/ordered`:
before / equal / after, plus the `undefined` outcome. -/
inductive Comparison where
  | before
  | equal
  | after
  | undefined
deriving DecidableEq, Repr

/-- `TimestampOptions` with possibly non-finite numeric fields. -/
structure TimestampOptionsJs where
  type : Option String := none
  year : Option JsNum := none
  month : Option JsNum := none
  day : Option JsNum := none
  hours : Option JsNum := none
  minutes : Option JsNum := none
  seconds : Option JsNum := none
deriving DecidableEq, Repr

/-- The calendar adapter on JS numbers: exact on finite inputs; on
non-finite input the underlying arithmetic propagates NaN/infinity (sum of
the three fields, which has the same finiteness and NaN behaviour as the
adapter's internal arithmetic). -/
def toReferenceDaysJs (y m d : JsNum) : JsNum :=
  match y, m, d with
  | .fin a, .fin b, .fin c => .fin ((toReferenceDays ⌊a⌋ ⌊b⌋ ⌊c⌋ : ℤ) : ℚ)
  | _, _, _ => jsAdd (jsAdd y m) d

/-- The time adapter on JS numbers: `hours*3600 + minutes*60 + seconds` in
IEEE-style arithmetic. -/
def timeToReferenceSecondsJs (h m s : JsNum) : JsNum :=
  jsAdd (jsAdd (jsMulPos h 3600) (jsMulPos m 60)) s

/-- src/index.ts `toReferenceSeconds` over JS numbers: defaults applied,
`days * 86400 + secondsOfDay`.  Pure arithmetic — never throws. -/
def toReferenceSecondsJs (o : TimestampOptionsJs) : JsNum :=
  jsAdd
    (jsMulPos (toReferenceDaysJs (o.year.getD (.fin 1)) (o.month.getD (.fin 1))
      (o.day.getD (.fin 1))) 86400)
    (timeToReferenceSecondsJs (o.hours.getD (.fin 0)) (o.minutes.getD (.fin 0))
      (o.seconds.getD (.fin 0)))

/-- src/index.ts `fromReferenceSeconds` (lines 332-342): throws
(`none` here) iff the value is not finite; otherwise proceeds with the
finite-value pipeline. -/
def fromReferenceSecondsJs (v : JsNum) : Option Timestamp :=
  match v with
  | .fin q => some (fromReferenceSecondsQ q)
  | _ => none

/-- src/index.ts `timestamp` over JS numbers. -/
def timestampJs (o : TimestampOptionsJs) : Option Timestamp :=
  fromReferenceSecondsJs (toReferenceSecondsJs o)

/-- One of the six defaulted numeric fields is non-finite. -/
def hasNonFiniteField (o : TimestampOptionsJs) : Bool :=
  !(o.year.getD (.fin 1)).isFinite || !(o.month.getD (.fin 1)).isFinite ||
  !(o.day.getD (.fin 1)).isFinite || !(o.hours.getD (.fin 0)).isFinite ||
  !(o.minutes.getD (.fin 0)).isFinite || !(o.seconds.getD (.fin 0)).isFinite

/-- One of the six defaulted numeric fields is NaN. -/
def hasNaNField (o : TimestampOptionsJs) : Bool :=
  (o.year.getD (.fin 1) == .nan) || (o.month.getD (.fin 1) == .nan) ||
  (o.day.getD (.fin 1) == .nan) || (o.hours.getD (.fin 0) == .nan) ||
  (o.minutes.getD (.fin 0) == .nan) || (o.seconds.getD (.fin 0) == .nan)

/-- src/index.ts `equal` (lines 355-357). -/
def equalJs (a b : TimestampOptionsJs) : Bool :=
  jsStrictEq (toReferenceSecondsJs a) (toReferenceSecondsJs b)

/-- src/index.ts `notEqual` (lines 377-379). -/
def notEqualJs (a b : TimestampOptionsJs) : Bool :=
  !jsStrictEq (toReferenceSecondsJs a) (toReferenceSecondsJs b)

/-- src/index.ts `before` (lines 438-440). -/
def beforeJs (a b : TimestampOptionsJs) : Bool :=
  jsLt (toReferenceSecondsJs a) (toReferenceSecondsJs b)

/-- src/index.ts `beforeOrEqual` (lines 461-463). -/
def beforeOrEqualJs (a b : TimestampOptionsJs) : Bool :=
  jsLe (toReferenceSecondsJs a) (toReferenceSecondsJs b)

/-- src/index.ts `after` (lines 484-486). -/
def afterJs (a b : TimestampOptionsJs) : Bool :=
  jsLt (toReferenceSecondsJs b) (toReferenceSecondsJs a)

/-- src/index.ts `afterOrEqual` (lines 507-509). -/
def afterOrEqualJs (a b : TimestampOptionsJs) : Bool :=
  jsLe (toReferenceSecondsJs b) (toReferenceSecondsJs a)

/-- src/index.ts `compare` (lines 401-414). -/
def compareJs (a b : TimestampOptionsJs) : Comparison :=
  if jsLt (toReferenceSecondsJs a) (toReferenceSecondsJs b) then Comparison.before
  else if jsLt (toReferenceSecondsJs b) (toReferenceSecondsJs a) then Comparison.after
  else if jsStrictEq (toReferenceSecondsJs a) (toReferenceSecondsJs b) then Comparison.equal
  else Comparison.undefined

theorem jsAdd_isFinite (a b : JsNum) :
    (jsAdd a b).isFinite = (a.isFinite && b.isFinite) := by
  cases a <;> cases b <;> rfl

theorem jsMulPos_isFinite (x : JsNum) (c : ℚ) : (jsMulPos x c).isFinite = x.isFinite := by
  cases x <;> rfl

theorem toReferenceDaysJs_isFinite (y m d : JsNum) :
    (toReferenceDaysJs y m d).isFinite = (y.isFinite && m.isFinite && d.isFinite) := by
  cases y <;> cases m <;> cases d <;> rfl

theorem toReferenceSecondsJs_isFinite (o : TimestampOptionsJs) :
    (toReferenceSecondsJs o).isFinite = !hasNonFiniteField o := by
  simp only [toReferenceSecondsJs, hasNonFiniteField, jsAdd_isFinite, jsMulPos_isFinite,
    toReferenceDaysJs_isFinite, timeToReferenceSecondsJs, Bool.not_or, Bool.not_not,
    Bool.and_assoc]

theorem jsAdd_nan_left (b : JsNum) : jsAdd .nan b = .nan := by cases b <;> rfl

theorem jsAdd_nan_right (a : JsNum) : jsAdd a .nan = .nan := by cases a <;> rfl

theorem toReferenceDaysJs_nan₁ (m d : JsNum) : toReferenceDaysJs .nan m d = .nan := by
  cases m <;> cases d <;> rfl

theorem toReferenceDaysJs_nan₂ (y d : JsNum) : toReferenceDaysJs y .nan d = .nan := by
  cases y <;> cases d <;> rfl

theorem toReferenceDaysJs_nan₃ (y m : JsNum) : toReferenceDaysJs y m .nan = .nan := by
  cases y <;> cases m <;> rfl

theorem toReferenceSecondsJs_nan (o : TimestampOptionsJs) (h : hasNaNField o = true) :
    toReferenceSecondsJs o = .nan := by
  simp only [hasNaNField, Bool.or_eq_true, beq_iff_eq] at h
  unfold toReferenceSecondsJs timeToReferenceSecondsJs
  rcases h with ((((h | h) | h) | h) | h) | h <;> rw [h] <;>
    simp only [toReferenceDaysJs_nan₁, toReferenceDaysJs_nan₂, toReferenceDaysJs_nan₃,
      jsMulPos, jsAdd_nan_left, jsAdd_nan_right]

/-- Claim C3: `timestamp(options)` fails (throws the invalid-input error,
modelled as `none`) if and only if at least one of the six defaulted
numeric fields of `options` is non-finite; with all fields finite it
returns a `Timestamp`. -/
theorem claim_C3_invalid_input_iff (o : TimestampOptionsJs) :
    timestampJs o = none ↔ hasNonFiniteField o = true := by
  have hf := toReferenceSecondsJs_isFinite o
  unfold timestampJs fromReferenceSecondsJs
  cases hv : toReferenceSecondsJs o <;> rw [hv] at hf <;> simp only [JsNum.isFinite] at hf
  · have hX : hasNonFiniteField o = false := by
      cases hB : hasNonFiniteField o
      · rfl
      · rw [hB] at hf; simp at hf
    simp [hX]
  all_goals
    have hX : hasNonFiniteField o = true := by
      cases hB : hasNonFiniteField o
      · rw [hB] at hf; simp at hf
      · rfl
  all_goals simp [hX]

/-- Witness for C3 in both directions: a NaN seconds field makes
`timestamp` throw, and the all-defaults input does not throw. -/
theorem claim_C3_invalid_input_iff_witness :
    timestampJs ⟨none, none, none, none, none, none, some .nan⟩ = none ∧
    ¬ timestampJs ⟨none, none, none, none, none, none, none⟩ = none :=
  ⟨(claim_C3_invalid_input_iff _).mpr (by decide),
   fun h => absurd ((claim_C3_invalid_input_iff _).mp h) (by decide)⟩

/-- Claim C9: the comparison operations are total functions of their inputs
(they reduce to `toReferenceSeconds`, which performs only arithmetic and
never fails), and on an input whose defaulted fields include NaN they
behave non-reflexively: `equal(a, a)` is false, `compare(a, a)` is the
`undefined` comparison, `notEqual(a, a)` is true, and all four order
predicates return false on `(a, a)`. -/
theorem claim_C9_comparisons_nan (a : TimestampOptionsJs) (h : hasNaNField a = true) :
    equalJs a a = false ∧ compareJs a a = Comparison.undefined ∧
    notEqualJs a a = true ∧ beforeJs a a = false ∧ beforeOrEqualJs a a = false ∧
    afterJs a a = false ∧ afterOrEqualJs a a = false := by
  have hnan := toReferenceSecondsJs_nan a h
  simp [equalJs, compareJs, notEqualJs, beforeJs, beforeOrEqualJs, afterJs, afterOrEqualJs,
    hnan, jsStrictEq, jsLt, jsLe]

/-- Witness for C9 at the input whose `seconds` field is NaN. -/
theorem claim_C9_comparisons_nan_witness :
    equalJs ⟨none, none, none, none, none, none, some .nan⟩
        ⟨none, none, none, none, none, none, some .nan⟩ = false ∧
    compareJs ⟨none, none, none, none, none, none, some .nan⟩
        ⟨none, none, none, none, none, none, some .nan⟩ = Comparison.undefined ∧
    notEqualJs ⟨none, none, none, none, none, none, some .nan⟩
        ⟨none, none, none, none, none, none, some .nan⟩ = true ∧
    beforeJs ⟨none, none, none, none, none, none, some .nan⟩
        ⟨none, none, none, none, none, none, some .nan⟩ = false ∧
    beforeOrEqualJs ⟨none, none, none, none, none, none, some .nan⟩
        ⟨none, none, none, none, none, none, some .nan⟩ = false ∧
    afterJs ⟨none, none, none, none, none, none, some .nan⟩
        ⟨none, none, none, none, none, none, some .nan⟩ = false ∧
    afterOrEqualJs ⟨none, none, none, none, none, none, some .nan⟩
        ⟨none, none, none, none, none, none, some .nan⟩ = false :=
  claim_C9_comparisons_nan _ (by decide)

set_option maxRecDepth 4000 in
/-- Claim C1 evaluated at a failing input: the library output
`timestamp({year: 2021, month: 1, day: 1, ...})` carries the type tag
`"Timestamp"` and passes the range check `isValid`, yet the structural
predicate `isTimestamp` — and therefore `isValidTimestamp` — rejects it,
because src/index.ts line 160 compares `value.type === "timestamp"`
(lowercase) while the library constructs the tag `"Timestamp"`. -/
theorem claim_C1_isTimestamp_rejects_library_output :
    (timestamp ⟨none, some 2021, some 1, some 1, some 0, some 0, some 0⟩).type = "Timestamp" ∧
    isValid (timestamp ⟨none, some 2021, some 1, some 1, some 0, some 0, some 0⟩).toOptions
      = true ∧
    isTimestamp (timestamp ⟨none, some 2021, some 1, some 1, some 0, some 0, some 0⟩).toOptions
      = false ∧
    isValidTimestamp
      (timestamp ⟨none, some 2021, some 1, some 1, some 0, some 0, some 0⟩).toOptions
      = false := by
  have he : timestamp ⟨none, some 2021, some 1, some 1, some 0, some 0, some 0⟩
      = ⟨"Timestamp", 2021, 1, 1, 0, 0, 0⟩ := by
    rw [timestamp_eval _ 2021 1 1 0 0 0 63745056000 0 (by norm_num) (by norm_num) (by norm_num)
        (by norm_num) (by norm_num) (by norm_num) le_rfl (by norm_num) (by decide)]
    rw [show fromReferenceDays (63745056000 / 86400) = ⟨2021, 1, 1⟩ from by decide]
    norm_num
  rw [he]
  refine ⟨rfl, by decide, by decide, by decide⟩

/-- Numeric value of a decimal digit character. -/
def digitVal (c : Char) : ℕ := c.toNat - 48

/-- Value of a run of decimal digit characters. -/
def digitsToNat (ds : List Char) : ℕ := ds.foldl (fun a c => 10 * a + digitVal c) 0

/-- Consume exactly two decimal digits (a `\d\x7b2\x7d` group). -/
def twoDigits (l : List Char) : Option (ℕ × List Char) :=
  match l with
  | c1 :: c2 :: rest =>
      if c1.isDigit && c2.isDigit then some (10 * digitVal c1 + digitVal c2, rest) else none
  | _ => none

/-- Consume one optional occurrence of the character `c` (the pattern's
`-?` and `:?` separators; deterministic because the following group always
requires a digit). -/
def skipOpt (c : Char) (l : List Char) : List Char :=
  match l with
  | x :: rest => if x = c then rest else l
  | [] => []

/-- The date/time delimiter `(?:T|\s+)` with the `i` flag: a `T` or `t`, or
a non-empty whitespace run. -/
def skipDelim (l : List Char) : Option (List Char) :=
  match l with
  | c :: rest =>
      if c = 'T' ∨ c = 't' then some rest
      else if c.isWhitespace then some (l.dropWhile Char.isWhitespace)
      else none
  | [] => none

/-- The optional tail of the seconds group `(?:[.,]?\d+)?` applied after the
two mandatory seconds digits with value `v2`: a bare digit run extends the
integer part; a `.` or `,` followed by digits contributes a fractional
part (the source's `parseFloat` after `replace(",", ".")`); anything else
leaves the group empty.  Deterministic: after the group the pattern
requires `Z` or a sign, which no digit run prefix can produce. -/
def parseSecondsRest (v2 : ℕ) (l : List Char) : ℚ × List Char :=
  match l with
  | c :: rest =>
      if c.isDigit then
        (mkRat (Int.ofNat (v2 * 10 ^ (l.takeWhile Char.isDigit).length
           + digitsToNat (l.takeWhile Char.isDigit))) 1,
         l.dropWhile Char.isDigit)
      else if c = '.' ∨ c = ',' then
        match rest with
        | d :: _ =>
            if d.isDigit then
              (mkRat (Int.ofNat (v2 * 10 ^ (rest.takeWhile Char.isDigit).length
                 + digitsToNat (rest.takeWhile Char.isDigit)))
                 (10 ^ (rest.takeWhile Char.isDigit).length),
               rest.dropWhile Char.isDigit)
            else (mkRat (Int.ofNat v2) 1, l)
        | [] => (mkRat (Int.ofNat v2) 1, l)
      else (mkRat (Int.ofNat v2) 1, l)
  | [] => (mkRat (Int.ofNat v2) 1, [])

/-- The anchored ending `(?:Z|([+-][0-9]\x7b2\x7d):?([0-9]\x7b2\x7d))$`
with the `i` flag: returns the parsed signed offset hours, the raw offset
minutes digits, and whether an explicit offset was present (`match[7] !=
null`); both are 0 for the `Z`/`z` case, as in the source's `?? 0`
defaults. -/
def parseEnd (l : List Char) : Option (ℤ × ℤ × Bool) :=
  match l with
  | ['Z'] => some (0, 0, false)
  | ['z'] => some (0, 0, false)
  | c :: rest =>
      if c = '+' ∨ c = '-' then
        match twoDigits rest with
        | some (hh, rest2) =>
            match twoDigits (skipOpt ':' rest2) with
            | some (mm, rest3) =>
                if rest3.isEmpty then
                  some ((if c = '-' then -(hh : ℤ) else (hh : ℤ)), (mm : ℤ), true)
                else none
            | none => none
        | none => none
      else none
  | [] => none

/-- The capture groups of the src/index.ts ISO 8601 pattern, already
converted to numbers as the source does with `parseInt`/`parseFloat`. -/
structure IsoCaptures where
  year : ℤ
  month : ℤ
  day : ℤ
  hours : ℤ
  minutes : ℤ
  seconds : ℚ
  offsetHours : ℤ
  offsetMinutesAbs : ℤ
  hasOffset : Bool
deriving DecidableEq, Repr

/-- The deterministic part of the pattern after the year group. -/
def parseIsoTail (l : List Char) : Option IsoCaptures := do
  let (mo, l1) ← twoDigits (skipOpt '-' l)
  let (dy, l2) ← twoDigits (skipOpt '-' l1)
  let l3 ← skipDelim l2
  let (hh, l4) ← twoDigits l3
  let (mi, l5) ← twoDigits (skipOpt ':' l4)
  let (s2, l6) ← twoDigits (skipOpt ':' l5)
  let (sec, l7) := parseSecondsRest s2 l6
  let (oh, om, hasOff) ← parseEnd l7
  pure ⟨0, (mo : ℤ), (dy : ℤ), (hh : ℤ), (mi : ℤ), sec, oh, om, hasOff⟩

/-- The src/index.ts ISO 8601 pattern
`^([+-]?\d\x7b4,\x7d)-?(\d\x7b2\x7d)-?(\d\x7b2\x7d)(?:T|\s+)...$` as a
recognizer on character lists.  The only backtracking point of the regex is
the greedy year group `\d\x7b4,\x7d` (everything after it is forced), so
the model tries year lengths from longest to shortest. -/
def matchIso (l : List Char) : Option IsoCaptures :=
  match l with
  | '+' :: r => matchIsoSigned 1 r
  | '-' :: r => matchIsoSigned (-1) r
  | _ => matchIsoSigned 1 l
where
  /-- Match the digits of the year and everything after it. -/
  matchIsoSigned (sgn : ℤ) (l1 : List Char) : Option IsoCaptures :=
    (List.range ((l1.takeWhile Char.isDigit).length - 3)).findSome? fun i =>
      match parseIsoTail ((l1.takeWhile Char.isDigit).drop
          ((l1.takeWhile Char.isDigit).length - i) ++ l1.dropWhile Char.isDigit) with
      | some t =>
          some { t with year := sgn * (digitsToNat ((l1.takeWhile Char.isDigit).take
              ((l1.takeWhile Char.isDigit).length - i)) : ℤ) }
      | none => none

/-- The `TimestampOptions` record built by src/index.ts `parseIso8601`
lines 635-645: `offsetMinutes` takes the sign of `offsetHours`
(`Math.sign`), and the offset is subtracted from the parsed hours and
minutes before normalizing. -/
def optionsOfCaptures (c : IsoCaptures) : TimestampOptions :=
  ⟨none, some (c.year : ℚ), some (c.month : ℚ), some (c.day : ℚ),
   some ((c.hours - c.offsetHours : ℤ) : ℚ),
   some ((c.minutes - c.offsetMinutesAbs * Int.sign c.offsetHours : ℤ) : ℚ),
   some c.seconds⟩

/-- src/index.ts `parseIso8601` (lines 626-646): `null` (here `none`) when
the pattern does not match, otherwise the Normalizer applied to the
captured fields adjusted by the offset. -/
def parseIso8601 (text : String) : Option Timestamp :=
  (matchIso text.data).map (fun c => timestamp (optionsOfCaptures c))

set_option maxRecDepth 4000 in
/-- Claim C6: for every text matching the pattern with an explicit signed
offset, `parseIso8601` subtracts the offset hours from the parsed hours and
the offset minutes — whose sign follows the sign of the offset hours — from
the parsed minutes, and constructs the result through the Normalizer, so
the stored timestamp is UTC. -/
theorem claim_C6_offset_normalized_to_utc (s : String) (c : IsoCaptures)
    (h : matchIso s.data = some c) (hoff : c.hasOffset = true) :
    parseIso8601 s = some (timestamp
      ⟨none, some (c.year : ℚ), some (c.month : ℚ), some (c.day : ℚ),
       some ((c.hours - c.offsetHours : ℤ) : ℚ),
       some ((c.minutes - c.offsetMinutesAbs * Int.sign c.offsetHours : ℤ) : ℚ),
       some c.seconds⟩) := by
  simp only [parseIso8601, h, Option.map_some', optionsOfCaptures]

set_option maxRecDepth 4000 in
/-- Witness for C6: `parseIso8601("1994-11-05T08:15:30-05:00")` equals
`timestamp({year: 1994, month: 11, day: 5, hours: 13, minutes: 15,
seconds: 30})`. -/
theorem claim_C6_offset_normalized_to_utc_witness :
    parseIso8601 "1994-11-05T08:15:30-05:00"
      = some (timestamp ⟨none, some 1994, some 11, some 5, some 13, some 15, some 30⟩) := by
  have h := claim_C6_offset_normalized_to_utc "1994-11-05T08:15:30-05:00"
    ⟨1994, 11, 5, 8, 15, 30, -5, 0, true⟩ (by decide) rfl
  rw [h]
  exact congrArg (fun o => some (timestamp o)) (by decide)


/-- Claim C8: for every input that does not match the ISO 8601 pattern,
`parseIso8601` returns the explicit no-value result (`null`, here `none`)
— it is a total function and does not throw. -/
theorem claim_C8_no_match_returns_null (s : String) (h : matchIso s.data = none) :
    parseIso8601 s = none := by
  simp only [parseIso8601, h, Option.map_none']

/-- Witness for C8: `parseIso8601("not-a-date")` is the no-value result. -/
theorem claim_C8_no_match_returns_null_witness : parseIso8601 "not-a-date" = none :=
  claim_C8_no_match_returns_null "not-a-date" (by decide)



set_option maxRecDepth 4000 in
/-- Claim C10: the decimal separator before fractional second digits is
optional in the pattern, so `"1994-11-05T13:15:3025Z"` parses successfully:
the whole digit run `3025` becomes the seconds value, which normalization
carries into minutes and hours (giving 14:05:25). -/
theorem claim_C10_optional_separator_seconds_run :
    parseIso8601 "1994-11-05T13:15:3025Z"
      = some (timestamp ⟨none, some 1994, some 11, some 5, some 13, some 15, some 3025⟩) ∧
    timestamp ⟨none, some 1994, some 11, some 5, some 13, some 15, some 3025⟩
      = ⟨"Timestamp", 1994, 11, 5, 14, 5, 25⟩ := by
  constructor
  · have h : matchIso "1994-11-05T13:15:3025Z".data
        = some ⟨1994, 11, 5, 13, 15, 3025, 0, 0, false⟩ := by decide
    simp only [parseIso8601, h, Option.map_some', optionsOfCaptures]
    exact congrArg (fun o => some (timestamp o)) (by decide)
  · rw [timestamp_eval _ 1994 11 5 13 15 3025 62919641125 0 (by norm_num) (by norm_num)
      (by norm_num) (by norm_num) (by norm_num) (by norm_num) le_rfl (by norm_num) (by decide)]
    rw [show fromReferenceDays (62919641125 / 86400) = ⟨1994, 11, 5⟩ from by decide]
    norm_num

/-- JavaScript `String.prototype.padStart(n, c)`. -/
def padStartJs (s : String) (n : ℕ) (c : Char) : String :=
  if n ≤ s.length then s else String.mk (List.replicate (n - s.length) c) ++ s

/-- Modelled: JavaScript number-to-string conversion, for values with a
finite decimal expansion of at most 30 digits (every value reachable in the
claims); integers print with no decimal point and negative values with a
leading minus, as `String(x)` does.  Values outside that shape (unreachable
here) fall back to a `num/den` rendering. -/
def jsRatToString (q : ℚ) : String :=
  if q.den = 1 then toString q.num
  else match (List.range 31).find? (fun k => 10 ^ k % q.den == 0) with
    | some k =>
        (if q.num < 0 then "-" else "")
          ++ toString ((q.num * ((10 ^ k / q.den : ℕ) : ℤ)).natAbs / 10 ^ k)
          ++ "."
          ++ padStartJs (toString ((q.num * ((10 ^ k / q.den : ℕ) : ℤ)).natAbs % 10 ^ k)) k '0'
    | none => toString q.num ++ "/" ++ toString q.den

/-- `String(seconds).replace(/^\d+/, s => s.padStart(2, "0"))` from
src/unnamed/part_002 line 291: left-pad the leading digit run to two
digits, keeping everything after it (the fractional part) unchanged. -/
def padSecondsString (s : String) : String :=
  if (s.data.takeWhile Char.isDigit).isEmpty then s
  else padStartJs (String.mk (s.data.takeWhile Char.isDigit)) 2 '0'
    ++ String.mk (s.data.dropWhile Char.isDigit)

/-- src/unnamed/part_002 `formatIso8601` (lines 278-294) with its helpers
`padYear`/`padMonth`/`padDay`/`padHours` (each normalizes and pads): year
padded to at least 4 digits, month/day/hours/minutes padded to 2, seconds
rendered by `String(seconds)` with the leading digit run padded to 2, and a
trailing `Z`. -/
def formatIso8601 (o : TimestampOptions) : String :=
  padStartJs (jsRatToString (timestamp o).year) 4 '0' ++ "-" ++
  padStartJs (jsRatToString (timestamp o).month) 2 '0' ++ "-" ++
  padStartJs (jsRatToString (timestamp o).day) 2 '0' ++ "T" ++
  padStartJs (jsRatToString (timestamp o).hours) 2 '0' ++ ":" ++
  padStartJs (jsRatToString (timestamp o).minutes) 2 '0' ++ ":" ++
  padSecondsString (jsRatToString (timestamp o).seconds) ++ "Z"

theorem padStartJs_length (s : String) (n : ℕ) (c : Char) :
    n ≤ (padStartJs s n c).length := by
  unfold padStartJs
  split
  · omega
  · have h1 : (String.mk (List.replicate (n - s.length) c) ++ s).length
        = (n - s.length) + s.length := by
      rw [String.length_append]
      have h2 : (String.mk (List.replicate (n - s.length) c)).length
          = (List.replicate (n - s.length) c).length := rfl
      rw [h2, List.length_replicate]
    omega

/-- C7: counterexample. The claim says `formatIso8601` drops fractional
seconds, rendering seconds `27.25` as `"27"`.  In the code
(src/unnamed/part_002 line 291) the seconds component is produced by
`String(seconds).replace(/^\d+/, s => s.padStart(2, "0"))`, which pads the
leading digit run but keeps the fractional part, so the library formats the
timestamp for 2021-04-30T13:11:27.25 as `"2021-04-30T13:11:27.25Z"`, not as
`"2021-04-30T13:11:27Z"` — and the repository's own test suite asserts the
fraction-preserving output. -/
theorem claim_C7_seconds_truncation_counterexample :
    formatIso8601 ⟨none, some 2021, some 4, some 30, some 13, some 11, some 27.25⟩
        = "2021-04-30T13:11:27.25Z" ∧
      formatIso8601 ⟨none, some 2021, some 4, some 30, some 13, some 11, some 27.25⟩
        ≠ "2021-04-30T13:11:27Z" := by
  have ht : timestamp ⟨none, some 2021, some 4, some 30, some 13, some 11, some 27.25⟩
      = ⟨"Timestamp", 2021, 4, 30, 13, 11, mkRat 109 4⟩ := by
    rw [timestamp_eval _ 2021 4 30 13 11 27 63755385087 (mkRat 1 4)
      (by norm_num) (by norm_num) (by norm_num) (by norm_num) (by norm_num)
      (by rw [Rat.mkRat_eq_div]; norm_num)
      (by rw [Rat.mkRat_eq_div]; norm_num) (by rw [Rat.mkRat_eq_div]; norm_num)
      (by decide)]
    rw [show fromReferenceDays (63755385087 / 86400) = ⟨2021, 4, 30⟩ from by decide]
    simp only [Rat.mkRat_eq_div]
    norm_num
  simp only [formatIso8601, ht]
  decide

/-- C7, amended: `formatIso8601` zero-left-pads the year to at least 4
digits without truncation, pads month/day/hours/minutes to 2 digits, and
renders the seconds component as JavaScript `String(seconds)` with its
leading digit run zero-padded to 2 digits and any fractional part
preserved (not dropped): the 2021-04-30T13:11:27.25 timestamp formats as
`"2021-04-30T13:11:27.25Z"`, and year 10000 with all other fields at their
defaults formats as `"10000-01-01T00:00:00Z"`. -/
theorem claim_C7_format_amended :
    formatIso8601 ⟨none, some 2021, some 4, some 30, some 13, some 11, some 27.25⟩
        = "2021-04-30T13:11:27.25Z" ∧
      formatIso8601 ⟨none, some 10000, none, none, none, none, none⟩
        = "10000-01-01T00:00:00Z" := by
  constructor
  · have ht : timestamp ⟨none, some 2021, some 4, some 30, some 13, some 11, some 27.25⟩
        = ⟨"Timestamp", 2021, 4, 30, 13, 11, mkRat 109 4⟩ := by
      rw [timestamp_eval _ 2021 4 30 13 11 27 63755385087 (mkRat 1 4)
        (by norm_num) (by norm_num) (by norm_num) (by norm_num) (by norm_num)
        (by rw [Rat.mkRat_eq_div]; norm_num)
        (by rw [Rat.mkRat_eq_div]; norm_num) (by rw [Rat.mkRat_eq_div]; norm_num)
        (by decide)]
      rw [show fromReferenceDays (63755385087 / 86400) = ⟨2021, 4, 30⟩ from by decide]
      simp only [Rat.mkRat_eq_div]
      norm_num
    simp only [formatIso8601, ht]
    decide
  · have ht : timestamp ⟨none, some 10000, none, none, none, none, none⟩
        = ⟨"Timestamp", 10000, 1, 1, 0, 0, 0⟩ := by
      rw [timestamp_eval _ 10000 1 1 0 0 0 315537897600 0
        (by norm_num) (by norm_num) (by norm_num) (by norm_num) (by norm_num)
        (by norm_num) le_rfl (by norm_num) (by decide)]
      rw [show fromReferenceDays (315537897600 / 86400) = ⟨10000, 1, 1⟩ from by decide]
      norm_num
    simp only [formatIso8601, ht]
    decide
